import Mathlib

/-!
Shallow embedding of TheScout API v0 (`app.py`) and proofs about it.

Modelling conventions:
* Python `str` is Lean `String`; `.lower()` is `strLower` (ASCII, as in the data
  handled by the app); the substring test `a in b` is `strIn a b`.
* Python floats in the scorer are embedded as exact rationals `ℚ`; Python's
  `round` (round-half-to-even on the result of `100 * (...)`) is `pyRound`.
* `uuid4().hex` identifiers and share tokens are opaque values compared only
  for equality; they are modelled as `Nat` drawn from a fresh counter
  `Store.nextId`, with freshness stated as the invariant `keysBounded`.
* A Python dict is an association list `List (Nat × α)` in insertion order:
  lookup is `dictGet`, assignment is `dictInsert` (update in place for an
  existing key, append for a new one), `.values()` is `List.map Prod.snd`.
* The global `DB` is the `Store` structure, threaded explicitly through the
  endpoint functions; `HTTPException` is `Except.error` with the detail string.
-/

/-- Lowercasing of a string, character by character, as Python `str.lower`
does on the ASCII data this app handles. -/
def strLower (s : String) : String :=
  ⟨s.data.map Char.toLower⟩

/-- Test whether `needle` matches a leading run of `hay`. -/
def charsLeadMatch : List Char → List Char → Bool
  | [], _ => true
  | _ :: _, [] => false
  | c :: cs, d :: ds => c = d && charsLeadMatch cs ds

/-- Test whether `needle` occurs contiguously inside `hay`, as Python
`needle in hay` on strings. -/
def charsContain (needle : List Char) : List Char → Bool
  | [] => needle.isEmpty
  | c :: rest => charsLeadMatch needle (c :: rest) || charsContain needle rest

/-- Python `needle in hay` for strings. -/
def strIn (needle hay : String) : Bool :=
  charsContain needle.data hay.data

/-- Python `list(dict.fromkeys(l))`: remove duplicates keeping the first
occurrence of each element, in order. -/
def dedupKeepFirst (l : List String) : List String :=
  l.foldl (fun acc a => if a ∈ acc then acc else acc ++ [a]) []

/-- Python `round` on the rational value of a float expression:
round half to even. -/
def pyRound (q : ℚ) : ℤ :=
  if q - ⌊q⌋ < 1/2 then ⌊q⌋
  else if 1/2 < q - ⌊q⌋ then ⌊q⌋ + 1
  else if ⌊q⌋ % 2 = 0 then ⌊q⌋ else ⌊q⌋ + 1

/-- Class `RTI` of `app.py`. `weights` (`Dict[str, float]`) and
`compensation` (`Dict[str, str]`) are association lists. -/
structure RTI where
  must : List String := []
  nice : List String := []
  knockout : List String := []
  weights : List (String × ℚ) := [("must", 6/10), ("nice", 3/10), ("bonus", 1/10)]
  compensation : List (String × String) := []
  screen_questions : List String := []
deriving DecidableEq, Repr

/-- Class `RoleCreate` of `app.py`. -/
structure RoleCreate where
  project_id : Option String := none
  title : String
  level : Option String := none
  location : Option String := none
  jd_raw : String
deriving DecidableEq, Repr

/-- Class `Role` of `app.py` (`RoleCreate` plus `id`, `rti_json`,
`share_token`), with the inherited fields flattened. -/
structure Role where
  project_id : Option String := none
  title : String
  level : Option String := none
  location : Option String := none
  jd_raw : String
  id : Nat
  rti_json : RTI
  share_token : Option Nat := none
deriving DecidableEq, Repr

/-- Class `CandidateProfile` of `app.py`. Note that it declares no
`consent_bool` field: consent lives on `CandidateIntake` and on the stored
submission row only. -/
structure CandidateProfile where
  name : Option String := none
  email : Option String := none
  skills : List String := []
  years_exp : Option ℚ := none
  latest_project : Option String := none
  visa_status : Option String := none
  notice_period : Option String := none
  location : Option String := none
  expected_comp : Option String := none
deriving DecidableEq, Repr

/-- Python `hasattr(prof, 'consent_bool')` for a `CandidateProfile` instance:
the pydantic model declares no such field and nothing in the program ever
assigns one, so this is `false` for every instance. -/
def CandidateProfile.hasConsentAttr (_ : CandidateProfile) : Bool := false

/-- Class `CandidateIntake` of `app.py`. -/
structure CandidateIntake where
  profile : CandidateProfile
  resume_url : Option String := none
  consent_bool : Bool := true
deriving DecidableEq, Repr

/-- Class `MatchResult` of `app.py`. `candidate_id : str` holds either the
placeholder `""` (modelled `none`) or a candidate identifier (`some`). -/
structure MatchResult where
  candidate_id : Option Nat := none
  score_int : ℤ
  rationale : List String := []
  flags : List String := []
deriving DecidableEq, Repr

/-- Value `DEFAULT_RTI` of `app.py`. -/
def DEFAULT_RTI : RTI :=
  { must := ["3y+ backend", "Python", "Korean C1"]
    nice := ["FastAPI", "AWS", "ML ops"]
    knockout := ["No work authorization"]
    weights := [("must", 6/10), ("nice", 3/10), ("bonus", 1/10)]
    screen_questions :=
      ["Latest backend project?", "Visa status?", "Notice period?"] }

/-- Function `draft_rti` of `app.py` (lines 104-119). -/
def draft_rti (jd_raw : String) : RTI :=
  let text := strLower jd_raw
  let must := (if strIn "python" text then ["Python"] else []) ++
              (if strIn "backend" text then ["3y+ backend"] else [])
  let nice := ["FastAPI", "AWS", "Postgres"].filter (fun s => strIn (strLower s) text)
  { must := dedupKeepFirst (if must.isEmpty then DEFAULT_RTI.must else must)
    nice := dedupKeepFirst (if nice.isEmpty then DEFAULT_RTI.nice else nice)
    knockout := DEFAULT_RTI.knockout
    weights := DEFAULT_RTI.weights
    screen_questions := DEFAULT_RTI.screen_questions }

/-- Python `if not prof.email:`: the email is `None` or the empty string. -/
def emailFalsy : Option String → Bool
  | none => true
  | some s => s.isEmpty

/-- The per-requirement test of `compute_score`:
`any(m.lower() in s.lower() for s in skills)`. The Python `set(...)` around
`prof.skills` only deduplicates, which does not change `any`. -/
def skillHit (skills : List String) (m : String) : Bool :=
  skills.any (fun s => strIn (strLower m) (strLower s))

/-- One iteration of the `for m in rti.must:` loop of `compute_score`:
bump `rules_hits` on a hit and append the rationale line. -/
def mustStep (skills : List String) (acc : Nat × List String) (m : String) :
    Nat × List String :=
  if skillHit skills m then (acc.1 + 1, acc.2 ++ ["+ " ++ m ++ " (must)"])
  else (acc.1, acc.2 ++ ["- " ++ m ++ " (missing)"])

/-- Denominator `rules_total = max(1, len(rti.must))`. -/
def rulesTotal (rti : RTI) : Nat := max 1 rti.must.length

/-- Accumulated `rules_hits` after the must loop. -/
def rulesHits (rti : RTI) (skills : List String) : Nat :=
  (rti.must.foldl (mustStep skills) (0, [])).1

/-- Rationale list accumulated by the must loop. -/
def rulesRationale (rti : RTI) (skills : List String) : List String :=
  (rti.must.foldl (mustStep skills) (0, [])).2

/-- Value `rules_score = rules_hits / rules_total` of `compute_score`. -/
def rulesScore (rti : RTI) (skills : List String) : ℚ :=
  (rulesHits rti skills : ℚ) / (rulesTotal rti : ℚ)

/-- Counter `nice_hits = sum(1 for n in rti.nice if any(...))`. -/
def niceHits (rti : RTI) (skills : List String) : Nat :=
  rti.nice.countP (skillHit skills)

/-- Denominator `max(1, len(rti.nice))`. -/
def niceTotal (rti : RTI) : Nat := max 1 rti.nice.length

/-- Value `nice_score = nice_hits / max(1, len(rti.nice))`. -/
def niceScore (rti : RTI) (skills : List String) : ℚ :=
  (niceHits rti skills : ℚ) / (niceTotal rti : ℚ)

/-- Value `score = int(round(100 * (0.7 * rules_score + 0.3 * nice_score)))`. -/
def rawScore (rti : RTI) (skills : List String) : ℤ :=
  pyRound (100 * (7/10 * rulesScore rti skills + 3/10 * niceScore rti skills))

/-- Function `compute_score` of `app.py` (lines 122-148). The argument is
`Option CandidateProfile` because the code guards `if prof is None`. The
final guard of line 145 reads
`if not prof.consent_bool if hasattr(prof, 'consent_bool') else False:`;
`hasattr(prof, 'consent_bool')` is `CandidateProfile.hasConsentAttr prof`,
which is `false` for every instance, so the conditional expression takes its
`else False` branch and the score reset together with the `"No consent"`
flag are unreachable. -/
def compute_score (rti : RTI) (prof : Option CandidateProfile) : MatchResult :=
  match prof with
  | none =>
    { candidate_id := none, score_int := 0
      rationale := ["No profile"], flags := ["KO: empty profile"] }
  | some prof =>
    let flags := if emailFalsy prof.email then ["Missing email"] else []
    let skills := prof.skills
    let rationale := rulesRationale rti skills
    let score := rawScore rti skills
    if prof.hasConsentAttr then
      { candidate_id := none, score_int := 0
        rationale := rationale, flags := flags ++ ["No consent"] }
    else
      { candidate_id := none, score_int := score
        rationale := rationale, flags := flags }

/-- Row of `DB["candidate_submissions"]` as written by `apply_to_role`. -/
structure Submission where
  id : Nat
  role_id : Nat
  candidate_id : Nat
  resume_url : Option String := none
  profile_json : CandidateProfile
  consent_bool : Bool
  ts : Nat
deriving DecidableEq, Repr

/-- Row of `DB["matches"]` as written by `match_role`: the `compute_score`
result with `candidate_id`, `id` and `role_id` filled in. -/
structure MatchRow where
  id : Nat
  role_id : Nat
  candidate_id : Nat
  score_int : ℤ
  rationale : List String := []
  flags : List String := []
deriving DecidableEq, Repr

/-- Lookup in a Python dict: `d.get(k)`. -/
def dictGet (k : Nat) : List (Nat × α) → Option α
  | [] => none
  | (k', v) :: rest => if k' = k then some v else dictGet k rest

/-- Assignment in a Python dict: `d[k] = v` updates an existing key in place
and appends a new key at the end, keeping insertion order. -/
def dictInsert (k : Nat) (v : α) : List (Nat × α) → List (Nat × α)
  | [] => [(k, v)]
  | (k', v') :: rest =>
    if k' = k then (k, v) :: rest else (k', v') :: dictInsert k v rest

/-- The global `DB` of `app.py` plus the fresh-identifier counter that stands
for `uuid4()`. The unused `users` and `events` tables are omitted. -/
structure Store where
  roles : List (Nat × Role) := []
  candidates : List (Nat × CandidateProfile) := []
  candidate_submissions : List (Nat × Submission) := []
  «matches» : List (Nat × MatchRow) := []
  nextId : Nat := 0
deriving DecidableEq, Repr

/-- Function `_id` of `app.py` (and the token mint `uuid4().hex[:12]`):
`uuid4` never repeats an identifier, modelled by a counter. -/
def freshId (σ : Store) : Nat × Store :=
  (σ.nextId, { σ with nextId := σ.nextId + 1 })

/-- Every key of the table is below the bound: the freshness guarantee of
`uuid4`, phrased for the counter model. -/
def keysBounded (l : List (Nat × α)) (n : Nat) : Prop :=
  ∀ p ∈ l, p.1 < n

/-- Endpoint `POST /roles` (`create_role`, lines 153-159). -/
def create_role (payload : RoleCreate) (σ : Store) : Role × Store :=
  let (role_id, σ₁) := freshId σ
  let rti := draft_rti payload.jd_raw
  let role : Role :=
    { project_id := payload.project_id, title := payload.title
      level := payload.level, location := payload.location
      jd_raw := payload.jd_raw, id := role_id, rti_json := rti
      share_token := none }
  (role, { σ₁ with roles := dictInsert role_id role σ₁.roles })

/-- Endpoint `GET /roles/{role_id}/share` (`get_share`, lines 170-178).
Python `role.get("share_token") or uuid4().hex[:12]` mints a token only when
none is stored (a stored token is a non-empty string, hence truthy). -/
def get_share (role_id : Nat) (σ : Store) : Except String (Nat × Store) :=
  match dictGet role_id σ.roles with
  | none => .error "Role not found"
  | some role =>
    match role.share_token with
    | some t =>
      .ok (t, { σ with roles := dictInsert role_id { role with share_token := some t } σ.roles })
    | none =>
      let (t, σ₁) := freshId σ
      .ok (t, { σ₁ with roles := dictInsert role_id { role with share_token := some t } σ₁.roles })

/-- Endpoint `POST /apply/{share_token}` (`apply_to_role`, lines 180-198).
`next(...)` scans the roles dict in insertion order; `time.time()` is the
`now` argument. -/
def apply_to_role (share_token : Nat) (payload : CandidateIntake) (now : Nat)
    (σ : Store) : Except String (Nat × Store) :=
  match σ.roles.find? (fun p => decide (p.2.share_token = some share_token)) with
  | none => .error "Role token invalid"
  | some (rid, _) =>
    let (cand_id, σ₁) := freshId σ
    let σ₂ := { σ₁ with candidates := dictInsert cand_id payload.profile σ₁.candidates }
    let (sub_id, σ₃) := freshId σ₂
    let sub : Submission :=
      { id := sub_id, role_id := rid, candidate_id := cand_id
        resume_url := payload.resume_url, profile_json := payload.profile
        consent_bool := payload.consent_bool, ts := now }
    .ok (cand_id, { σ₃ with candidate_submissions := dictInsert sub_id sub σ₃.candidate_submissions })

/-- Loop body of `match_role`: score each submission, mint an id, store the
match row, count. -/
def scoreSubs (rti : RTI) (role_id : Nat) : List Submission → Store → Nat × Store
  | [], σ => (0, σ)
  | s :: rest, σ =>
    let mr := compute_score rti (some s.profile_json)
    let (mr_id, σ₁) := freshId σ
    let row : MatchRow :=
      { id := mr_id, role_id := role_id, candidate_id := s.candidate_id
        score_int := mr.score_int, rationale := mr.rationale, flags := mr.flags }
    let σ₂ := { σ₁ with «matches» := dictInsert mr_id row σ₁.«matches» }
    let (c, σ₃) := scoreSubs rti role_id rest σ₂
    (c + 1, σ₃)

/-- Endpoint `POST /match/{role_id}` (`match_role`, lines 200-217): look the
role up, score every submission for it, append the match rows, return the
count as `{"scored": count}`. -/
def match_role (role_id : Nat) (σ : Store) : Except String (Nat × Store) :=
  match dictGet role_id σ.roles with
  | none => .error "Role not found"
  | some role =>
    let rti := role.rti_json
    let subs := (σ.candidate_submissions.map Prod.snd).filter
      (fun s => decide (s.role_id = role_id))
    .ok (scoreSubs rti role_id subs σ)

/-- Endpoint `GET /shortlist/{role_id}` (`shortlist`, lines 219-223): filter
the match rows of the role by `score_int >= min_score`, stable-sort
descending by score, return them as `MatchResult`s. -/
def shortlist (role_id : Nat) (min_score : ℤ) (σ : Store) : List MatchResult :=
  let rows := (σ.«matches».map Prod.snd).filter
    (fun m => decide (m.role_id = role_id) && decide (min_score ≤ m.score_int))
  let sorted := rows.mergeSort (fun a b => decide (b.score_int ≤ a.score_int))
  sorted.map (fun r =>
    { candidate_id := some r.candidate_id, score_int := r.score_int
      rationale := r.rationale, flags := r.flags })

/-- Submissions of a role, in insertion order: the list `subs` computed by
`match_role`. -/
def subsFor (role_id : Nat) (σ : Store) : List Submission :=
  (σ.candidate_submissions.map Prod.snd).filter (fun s => decide (s.role_id = role_id))

/-- Number of stored match rows that belong to a role. -/
def matchCountFor (role_id : Nat) (σ : Store) : Nat :=
  (σ.«matches».map Prod.snd).countP (fun m => decide (m.role_id = role_id))

/-- Store-passing form of `draft_rti`: the body of the source function
mentions no `DB` table, so the result depends only on the argument and the
store passes through untouched. -/
def draft_rti_db (jd_raw : String) (σ : Store) : RTI × Store :=
  (draft_rti jd_raw, σ)

/-- Store-passing form of `compute_score`: the body of the source function
mentions no `DB` table, so the result depends only on the arguments and the
store passes through untouched. -/
def compute_score_db (rti : RTI) (prof : Option CandidateProfile) (σ : Store) :
    MatchResult × Store :=
  (compute_score rti prof, σ)

/-- Job description of the end-to-end scenario. -/
def jdScenario : String := "We need a Python backend engineer, FastAPI + AWS a plus"

/-- Candidate profile of the end-to-end scenario. -/
def profScenario : CandidateProfile :=
  { email := some "a@b.c", skills := ["Python", "AWS", "FastAPI"] }

/-- An RTI with empty requirement lists. -/
def rtiEmptyReq : RTI :=
  { must := [], nice := [], knockout := [], weights := []
    compensation := [], screen_questions := [] }

/-- A profile holding a single skill. -/
def profPython : CandidateProfile :=
  { email := some "c@d.e", skills := ["Python"] }

/-- A role with no token yet, used to instantiate store lemmas. -/
def roleSeed : Role :=
  { title := "t", jd_raw := "python", id := 0
    rti_json := draft_rti "python", share_token := none }

/-- A one-role store. -/
def σSeed : Store := { roles := [(0, roleSeed)], nextId := 1 }

/-- The store after minting a share token for the role of `σSeed`. -/
def σSeed2 : Store :=
  { roles := [(0, { roleSeed with share_token := some 1 })], nextId := 2 }

/-- The match row `match_role` writes for submission `s` under fresh id
`mr_id`: the `compute_score` result with identifiers filled in. -/
def rowFor (rti : RTI) (role_id : Nat) (s : Submission) (mr_id : Nat) : MatchRow :=
  { id := mr_id, role_id := role_id, candidate_id := s.candidate_id
    score_int := (compute_score rti (some s.profile_json)).score_int
    rationale := (compute_score rti (some s.profile_json)).rationale
    flags := (compute_score rti (some s.profile_json)).flags }

/-- A stored submission for the role of `σSeed`. -/
def subSeed : Submission :=
  { id := 3, role_id := 0, candidate_id := 2
    profile_json := profPython, consent_bool := false, ts := 0 }

/-- A stored match row for the role of `σSeed`. -/
def rowSeed : MatchRow :=
  { id := 4, role_id := 0, candidate_id := 2, score_int := 70
    rationale := ["+ Python (must)"], flags := [] }

/-- The `MatchResult` that `shortlist` builds from `rowSeed`. -/
def resultSeed : MatchResult :=
  { candidate_id := some 2, score_int := 70
    rationale := ["+ Python (must)"], flags := [] }

/-- A store with one role, one candidate, one submission and one match row. -/
def σMatchSeed : Store :=
  { roles := [(0, roleSeed)], candidates := [(2, profPython)]
    candidate_submissions := [(3, subSeed)], «matches» := [(4, rowSeed)]
    nextId := 5 }

/-- An RTI with one must-have and one nice-to-have. -/
def rtiPF : RTI :=
  { must := ["Python"], nice := ["FastAPI"], knockout := [], weights := []
    compensation := [], screen_questions := [] }

/-- A profile covering both requirements of `rtiPF`. -/
def profPF : CandidateProfile :=
  { email := some "a@b.c", skills := ["Python", "FastAPI"] }

/-!
Theorems. General lemmas about the embedding come first, the claim theorems
and their witnesses follow.
-/

/-- Unfolding of `compute_score` on a present profile: the consent guard of
line 145 is `false` for every `CandidateProfile`, so the else branch is
taken. -/
theorem compute_score_some (rti : RTI) (prof : CandidateProfile) :
    compute_score rti (some prof) =
      { candidate_id := none, score_int := rawScore rti prof.skills
        rationale := rulesRationale rti prof.skills
        flags := if emailFalsy prof.email then ["Missing email"] else [] } := rfl

/-- Evaluation of `pyRound` at an integer. -/
theorem pyRound_intCast (n : ℤ) : pyRound (n : ℚ) = n := by
  simp [pyRound]

/-- The `rules_hits` accumulator of the must loop counts the hits. -/
theorem foldl_mustStep_fst (skills : List String) (l : List String)
    (acc : Nat × List String) :
    (l.foldl (mustStep skills) acc).1 = acc.1 + l.countP (skillHit skills) := by
  induction l generalizing acc with
  | nil => simp
  | cons m rest ih =>
    by_cases h : skillHit skills m
    · simp [mustStep, h, ih, List.countP_cons]
      omega
    · simp [mustStep, h, ih, List.countP_cons]

/-- `rules_hits` equals the number of satisfied must-haves. -/
theorem rulesHits_eq_countP (rti : RTI) (skills : List String) :
    rulesHits rti skills = rti.must.countP (skillHit skills) := by
  simp [rulesHits, foldl_mustStep_fst]

/-- `pyRound` never rounds below zero. -/
theorem pyRound_nonneg {q : ℚ} (h : 0 ≤ q) : 0 ≤ pyRound q := by
  have hf : (0 : ℤ) ≤ ⌊q⌋ := Int.le_floor.2 (by exact_mod_cast h)
  unfold pyRound
  split
  · exact hf
  · split
    · omega
    · split <;> omega

/-- `pyRound` never rounds a value at most `n` above `n`. -/
theorem pyRound_le_intCast {q : ℚ} {n : ℤ} (h : q ≤ (n : ℚ)) : pyRound q ≤ n := by
  have hfle : ⌊q⌋ ≤ n := by
    calc ⌊q⌋ ≤ ⌊(n : ℚ)⌋ := Int.floor_le_floor h
    _ = n := Int.floor_intCast n
  by_cases hbr : q - ⌊q⌋ < 1/2
  · simp only [pyRound, if_pos hbr]
    exact hfle
  · have hlt : ⌊q⌋ < n := by
      rcases lt_or_eq_of_le hfle with hlt | heq
      · exact hlt
      · exfalso
        apply hbr
        have hq : (n : ℚ) ≤ q := by
          rw [← heq]
          exact Int.floor_le q
        have hqn : q = (n : ℚ) := le_antisymm h hq
        have hcast : ((n : ℚ)) - ⌊(n : ℚ)⌋ < 1/2 := by
          rw [Int.floor_intCast]
          norm_num
        rw [hqn]
        exact hcast
    simp only [pyRound, if_neg hbr]
    split
    · omega
    · split <;> omega

/-- `rules_score` lies in `[0, 1]`. -/
theorem rulesScore_mem_unit (rti : RTI) (skills : List String) :
    0 ≤ rulesScore rti skills ∧ rulesScore rti skills ≤ 1 := by
  have htot : 0 < (rulesTotal rti : ℚ) := by
    have : 0 < rulesTotal rti := by
      simp [rulesTotal]
    exact_mod_cast this
  constructor
  · exact div_nonneg (by positivity) (le_of_lt htot)
  · rw [rulesScore, div_le_one htot]
    have hhits : rulesHits rti skills ≤ rulesTotal rti := by
      rw [rulesHits_eq_countP, rulesTotal]
      calc rti.must.countP (skillHit skills) ≤ rti.must.length := List.countP_le_length _
      _ ≤ max 1 rti.must.length := le_max_right _ _
    exact_mod_cast hhits

/-- `nice_score` lies in `[0, 1]`. -/
theorem niceScore_mem_unit (rti : RTI) (skills : List String) :
    0 ≤ niceScore rti skills ∧ niceScore rti skills ≤ 1 := by
  have htot : 0 < (niceTotal rti : ℚ) := by
    have : 0 < niceTotal rti := by
      simp [niceTotal]
    exact_mod_cast this
  constructor
  · exact div_nonneg (by positivity) (le_of_lt htot)
  · rw [niceScore, div_le_one htot]
    have hhits : niceHits rti skills ≤ niceTotal rti := by
      rw [niceHits, niceTotal]
      calc rti.nice.countP (skillHit skills) ≤ rti.nice.length := List.countP_le_length _
      _ ≤ max 1 rti.nice.length := le_max_right _ _
    exact_mod_cast hhits

/-- The raw score lies in `[0, 100]`. -/
theorem rawScore_mem_range (rti : RTI) (skills : List String) :
    0 ≤ rawScore rti skills ∧ rawScore rti skills ≤ 100 := by
  obtain ⟨hr0, hr1⟩ := rulesScore_mem_unit rti skills
  obtain ⟨hn0, hn1⟩ := niceScore_mem_unit rti skills
  constructor
  · apply pyRound_nonneg
    positivity
  · apply pyRound_le_intCast
    have : 7/10 * rulesScore rti skills + 3/10 * niceScore rti skills ≤ 1 := by
      nlinarith
    push_cast
    nlinarith

/-- Looking up the key just assigned finds the assigned value. -/
theorem dictGet_dictInsert_self (k : Nat) (v : α) (l : List (Nat × α)) :
    dictGet k (dictInsert k v l) = some v := by
  induction l with
  | nil => simp [dictGet, dictInsert]
  | cons p rest ih =>
    obtain ⟨k', v'⟩ := p
    by_cases h : k' = k
    · simp [dictInsert, dictGet, h]
    · simp [dictInsert, dictGet, h, ih]

/-- Assignment to one key leaves lookups of other keys unchanged. -/
theorem dictGet_dictInsert_ne (k k' : Nat) (v : α) (l : List (Nat × α))
    (h : k' ≠ k) : dictGet k' (dictInsert k v l) = dictGet k' l := by
  have h' : k ≠ k' := Ne.symm h
  induction l with
  | nil => simp [dictGet, dictInsert, h']
  | cons p rest ih =>
    obtain ⟨k0, v0⟩ := p
    by_cases h0 : k0 = k
    · subst h0
      simp [dictInsert, dictGet, h']
    · by_cases h1 : k0 = k'
      · simp [dictInsert, dictGet, h0, h1, h]
      · simp [dictInsert, dictGet, h0, h1, ih]

/-- Re-assigning the value a key already holds leaves the dict unchanged. -/
theorem dictInsert_eq_self_of_get (k : Nat) (v : α) (l : List (Nat × α))
    (h : dictGet k l = some v) : dictInsert k v l = l := by
  induction l with
  | nil => simp [dictGet] at h
  | cons p rest ih =>
    obtain ⟨k', v'⟩ := p
    by_cases h0 : k' = k
    · subst h0
      simp [dictGet] at h
      simp [dictInsert, h]
    · simp [dictGet, h0] at h
      simp [dictInsert, h0, ih h]

/-- Assignment to an absent key appends the pair at the end. -/
theorem dictInsert_eq_append (k : Nat) (v : α) (l : List (Nat × α))
    (h : ∀ p ∈ l, p.1 ≠ k) : dictInsert k v l = l ++ [(k, v)] := by
  induction l with
  | nil => simp [dictInsert]
  | cons p rest ih =>
    obtain ⟨k', v'⟩ := p
    have hk : k' ≠ k := h (k', v') (by simp)
    simp [dictInsert, hk]
    exact ih (fun p hp => h p (by simp [hp]))

/-- Updating the token field with the token a role already holds is the
identity. -/
theorem role_update_token_self (role : Role) (t : Nat)
    (h : role.share_token = some t) :
    ({ role with share_token := some t } : Role) = role := by
  cases role
  simp_all

/-- Running `get_share` on a role that already holds a token returns that
token and leaves the store unchanged. -/
theorem get_share_stable (σ : Store) (rid t : Nat) (role : Role)
    (hget : dictGet rid σ.roles = some role) (htok : role.share_token = some t) :
    get_share rid σ = .ok (t, σ) := by
  simp [get_share, hget, htok, role_update_token_self role t htok,
    dictInsert_eq_self_of_get rid role σ.roles hget]

/-- Running `get_share` on a role with no token mints `σ.nextId`. -/
theorem get_share_mint (σ : Store) (rid : Nat) (role : Role)
    (hget : dictGet rid σ.roles = some role) (htok : role.share_token = none) :
    get_share rid σ = .ok (σ.nextId,
      { σ with
          roles := dictInsert rid { role with share_token := some σ.nextId } σ.roles
          nextId := σ.nextId + 1 }) := by
  simp [get_share, hget, htok, freshId]


/-- C5: for every role identifier, the share-link operation fails with
"not found" when the role is absent, and for a present role it is idempotent
after the first call: every repeated call returns the token of the first
call and leaves the store, in particular the stored token, unchanged. -/
theorem C5_share_link (σ : Store) (rid : Nat) :
    (dictGet rid σ.roles = none → get_share rid σ = .error "Role not found") ∧
    (∀ t σ', get_share rid σ = .ok (t, σ') →
      get_share rid σ' = .ok (t, σ') ∧
      ∃ role', dictGet rid σ'.roles = some role' ∧ role'.share_token = some t) := by
  constructor
  · intro h
    simp [get_share, h]
  · intro t σ' h
    cases hget : dictGet rid σ.roles with
    | none => simp [get_share, hget] at h
    | some role =>
      cases htok : role.share_token with
      | some t0 =>
        rw [get_share_stable σ rid t0 role hget htok] at h
        rw [Except.ok.injEq, Prod.mk.injEq] at h
        obtain ⟨ht, hσ⟩ := h
        subst ht
        subst hσ
        refine ⟨get_share_stable σ rid t0 role hget htok, role, ?_, htok⟩
        simp [hget]
      | none =>
        rw [get_share_mint σ rid role hget htok] at h
        rw [Except.ok.injEq, Prod.mk.injEq] at h
        obtain ⟨ht, hσ⟩ := h
        subst ht
        subst hσ
        have hget' : dictGet rid
            (dictInsert rid { role with share_token := some σ.nextId } σ.roles)
            = some { role with share_token := some σ.nextId } :=
          dictGet_dictInsert_self rid _ σ.roles
        refine ⟨get_share_stable _ rid σ.nextId _ hget' rfl,
          { role with share_token := some σ.nextId }, ?_, rfl⟩
        simp [hget']

/-- Witness for C5 at a concrete store. -/
theorem C5_share_link_witness :
    get_share 0 σSeed2 = .ok (1, σSeed2) ∧
    ∃ role', dictGet 0 σSeed2.roles = some role' ∧ role'.share_token = some 1 :=
  (C5_share_link σSeed 0).2 1 σSeed2 rfl

/-- C9: the share-link operation changes at most the `share_token` field of
the requested role: the candidates, submissions and matches tables, every
other role, and every other field of the requested role are unchanged. -/
theorem C9_share_frame (σ : Store) (rid t : Nat) (σ' : Store)
    (h : get_share rid σ = .ok (t, σ')) :
    σ'.candidates = σ.candidates ∧
    σ'.candidate_submissions = σ.candidate_submissions ∧
    σ'.«matches» = σ.«matches» ∧
    (∀ k, k ≠ rid → dictGet k σ'.roles = dictGet k σ.roles) ∧
    ∃ role role', dictGet rid σ.roles = some role ∧
      dictGet rid σ'.roles = some role' ∧
      role'.project_id = role.project_id ∧ role'.title = role.title ∧
      role'.level = role.level ∧ role'.location = role.location ∧
      role'.jd_raw = role.jd_raw ∧ role'.id = role.id ∧
      role'.rti_json = role.rti_json := by
  cases hget : dictGet rid σ.roles with
  | none => simp [get_share, hget] at h
  | some role =>
    cases htok : role.share_token with
    | some t0 =>
      rw [get_share_stable σ rid t0 role hget htok] at h
      rw [Except.ok.injEq, Prod.mk.injEq] at h
      obtain ⟨ht, hσ⟩ := h
      subst hσ
      refine ⟨rfl, rfl, rfl, fun k _ => rfl,
        role, role, ?_, ?_, rfl, rfl, rfl, rfl, rfl, rfl, rfl⟩
      · simp [hget]
      · simp [hget]
    | none =>
      rw [get_share_mint σ rid role hget htok] at h
      rw [Except.ok.injEq, Prod.mk.injEq] at h
      obtain ⟨ht, hσ⟩ := h
      subst hσ
      refine ⟨rfl, rfl, rfl, ?_,
        role, { role with share_token := some σ.nextId }, ?_,
        dictGet_dictInsert_self rid _ σ.roles, rfl, rfl, rfl, rfl, rfl, rfl, rfl⟩
      · intro k hk
        exact dictGet_dictInsert_ne rid k _ σ.roles hk
      · simp [hget]

/-- Witness for C9 at a concrete store. -/
theorem C9_share_frame_witness :
    σSeed2.candidates = σSeed.candidates ∧
    σSeed2.candidate_submissions = σSeed.candidate_submissions ∧
    σSeed2.«matches» = σSeed.«matches» ∧
    (∀ k, k ≠ 0 → dictGet k σSeed2.roles = dictGet k σSeed.roles) ∧
    ∃ role role', dictGet 0 σSeed.roles = some role ∧
      dictGet 0 σSeed2.roles = some role' ∧
      role'.project_id = role.project_id ∧ role'.title = role.title ∧
      role'.level = role.level ∧ role'.location = role.location ∧
      role'.jd_raw = role.jd_raw ∧ role'.id = role.id ∧
      role'.rti_json = role.rti_json :=
  C9_share_frame σSeed 0 1 σSeed2 rfl

/-- C7: for every RTI and every profile, including the no-profile case, the
score computed by `compute_score` is an integer in `[0, 100]`. -/
theorem C7_score_range (rti : RTI) (prof : Option CandidateProfile) :
    0 ≤ (compute_score rti prof).score_int ∧
    (compute_score rti prof).score_int ≤ 100 := by
  cases prof with
  | none => simp [compute_score]
  | some p =>
    rw [compute_score_some]
    exact ⟨(rawScore_mem_range rti p.skills).1, (rawScore_mem_range rti p.skills).2⟩

/-- C8: for an RTI with an empty must list, `compute_score` performs no
division by zero: the rules denominator is floored at 1 and `rules_score`
is `0/1 = 0`; the nice denominator is likewise floored at 1. -/
theorem C8_denominator_floor (rti : RTI) (skills : List String)
    (hm : rti.must = []) :
    rulesTotal rti = 1 ∧ rulesScore rti skills = 0 ∧
    1 ≤ rulesTotal rti ∧ 1 ≤ niceTotal rti ∧
    (rti.nice = [] → niceTotal rti = 1) := by
  have ht : rulesTotal rti = 1 := by simp [rulesTotal, hm]
  have hh : rulesHits rti skills = 0 := by simp [rulesHits_eq_countP, hm]
  refine ⟨ht, ?_, le_max_left _ _, le_max_left _ _, ?_⟩
  · simp [rulesScore, hh]
  · intro hn
    simp [niceTotal, hn]

/-- Witness for C8 at a concrete RTI with empty lists. -/
theorem C8_denominator_floor_witness :
    rtiEmptyReq.must = [] ∧
    (rulesTotal rtiEmptyReq = 1 ∧ rulesScore rtiEmptyReq ["Python"] = 0 ∧
      1 ≤ rulesTotal rtiEmptyReq ∧ 1 ≤ niceTotal rtiEmptyReq ∧
      (rtiEmptyReq.nice = [] → niceTotal rtiEmptyReq = 1)) :=
  ⟨rfl, C8_denominator_floor rtiEmptyReq ["Python"] rfl⟩

/-- One unfolding of the scoring loop. -/
theorem scoreSubs_cons (rti : RTI) (rid : Nat) (s : Submission)
    (rest : List Submission) (σ : Store) :
    scoreSubs rti rid (s :: rest) σ =
      ((scoreSubs rti rid rest
          { σ with
              nextId := σ.nextId + 1
              «matches» := dictInsert σ.nextId (rowFor rti rid s σ.nextId) σ.«matches» }).1 + 1,
        (scoreSubs rti rid rest
          { σ with
              nextId := σ.nextId + 1
              «matches» := dictInsert σ.nextId (rowFor rti rid s σ.nextId) σ.«matches» }).2) := rfl

/-- Effect of the scoring loop: under fresh keys it counts the submissions
and appends one match row per submission, each for the requested role,
leaving the previously stored rows in place. -/
theorem scoreSubs_spec (rti : RTI) (rid : Nat) (subs : List Submission) :
    ∀ (σ : Store), keysBounded σ.«matches» σ.nextId →
      (scoreSubs rti rid subs σ).1 = subs.length ∧
      ∃ rows, (scoreSubs rti rid subs σ).2.«matches» = σ.«matches» ++ rows ∧
        rows.length = subs.length ∧
        ∀ p ∈ rows, (p : Nat × MatchRow).2.role_id = rid := by
  induction subs with
  | nil =>
    intro σ h
    exact ⟨rfl, [], by simp [scoreSubs], rfl, by simp⟩
  | cons s rest ih =>
    intro σ h
    have hfresh : ∀ p ∈ σ.«matches», (p : Nat × MatchRow).1 ≠ σ.nextId :=
      fun p hp => Nat.ne_of_lt (h p hp)
    have happ : dictInsert σ.nextId (rowFor rti rid s σ.nextId) σ.«matches» =
        σ.«matches» ++ [(σ.nextId, rowFor rti rid s σ.nextId)] :=
      dictInsert_eq_append σ.nextId _ σ.«matches» hfresh
    have hbound : keysBounded
        (dictInsert σ.nextId (rowFor rti rid s σ.nextId) σ.«matches») (σ.nextId + 1) := by
      rw [happ]
      intro p hp
      rcases List.mem_append.1 hp with hp | hp
      · exact Nat.lt_succ_of_lt (h p hp)
      · simp at hp
        simp [hp]
    obtain ⟨hc, rows, hmat, hlen, hrid⟩ := ih
      { σ with
          nextId := σ.nextId + 1
          «matches» := dictInsert σ.nextId (rowFor rti rid s σ.nextId) σ.«matches» }
      hbound
    rw [scoreSubs_cons]
    refine ⟨by simp [hc], (σ.nextId, rowFor rti rid s σ.nextId) :: rows, ?_, by simp [hlen], ?_⟩
    · rw [hmat]
      simp only [happ]
      simp [List.append_assoc]
    · intro p hp
      rcases List.mem_cons.1 hp with hp | hp
      · simp [hp, rowFor]
      · exact hrid p hp

/-- For a present role, `match_role` scores exactly the submissions of that
role, starting from the unchanged store. -/
theorem match_role_of_get (σ : Store) (rid : Nat) (role : Role)
    (hrole : dictGet rid σ.roles = some role) :
    match_role rid σ = .ok (scoreSubs role.rti_json rid (subsFor rid σ) σ) := by
  simp [match_role, hrole, subsFor]

/-- C4: for a role present in the store with `M` submissions and `N` stored
match rows, running match succeeds, returns count `M`, and leaves `N + M`
match rows for that role; no prior match row is replaced or removed. -/
theorem C4_match_appends (σ : Store) (rid : Nat) (role : Role)
    (hrole : dictGet rid σ.roles = some role)
    (hfresh : keysBounded σ.«matches» σ.nextId) :
    ∃ σ', match_role rid σ = .ok ((subsFor rid σ).length, σ') ∧
      matchCountFor rid σ' = matchCountFor rid σ + (subsFor rid σ).length ∧
      ∀ p ∈ σ.«matches», p ∈ σ'.«matches» := by
  obtain ⟨hc, rows, hmat, hlen, hrid⟩ :=
    scoreSubs_spec role.rti_json rid (subsFor rid σ) σ hfresh
  refine ⟨(scoreSubs role.rti_json rid (subsFor rid σ) σ).2, ?_, ?_, ?_⟩
  · rw [match_role_of_get σ rid role hrole]
    rw [← hc]
  · rw [matchCountFor, hmat]
    rw [List.map_append, List.countP_append]
    have : (rows.map Prod.snd).countP (fun m => decide (m.role_id = rid)) = rows.length := by
      rw [List.countP_eq_length.2, List.length_map]
      intro m hm
      obtain ⟨p, hp, hpm⟩ := List.mem_map.1 hm
      subst hpm
      simp [hrid p hp]
    rw [this, hlen, matchCountFor]
  · intro p hp
    rw [hmat]
    exact List.mem_append_left _ hp

/-- Witness for C4 at a concrete store with one submission and one prior
match row. -/
theorem C4_match_appends_witness :
    ∃ σ', match_role 0 σMatchSeed = .ok ((subsFor 0 σMatchSeed).length, σ') ∧
      matchCountFor 0 σ' = matchCountFor 0 σMatchSeed + (subsFor 0 σMatchSeed).length ∧
      ∀ p ∈ σMatchSeed.«matches», p ∈ σ'.«matches» :=
  C4_match_appends σMatchSeed 0 roleSeed rfl
    (by simp [keysBounded, σMatchSeed])

/-- The comparator `shortlist` sorts with is transitive. -/
theorem shortlistLe_trans (a b c : MatchRow) :
    (decide (b.score_int ≤ a.score_int)) → (decide (c.score_int ≤ b.score_int)) →
    (decide (c.score_int ≤ a.score_int)) := by
  simp only [decide_eq_true_eq]
  exact fun hab hbc => le_trans hbc hab

/-- The comparator `shortlist` sorts with is total. -/
theorem shortlistLe_total (a b : MatchRow) :
    (decide (b.score_int ≤ a.score_int)) || (decide (a.score_int ≤ b.score_int)) := by
  simp only [Bool.or_eq_true, decide_eq_true_eq]
  exact le_total _ _

/-- C6: every list returned by `shortlist` has scores non-increasing by
position, contains no match below the threshold `k`, and consists only of
match rows stored for the requested role. -/
theorem C6_shortlist_ranked (σ : Store) (rid : Nat) (k : ℤ) (r : MatchResult) :
    (shortlist rid k σ).Pairwise (fun a b => b.score_int ≤ a.score_int) ∧
    (r ∈ shortlist rid k σ →
      k ≤ r.score_int ∧
      ∃ row, row ∈ σ.«matches».map Prod.snd ∧ row.role_id = rid ∧
        r = { candidate_id := some row.candidate_id, score_int := row.score_int
              rationale := row.rationale, flags := row.flags }) := by
  constructor
  · have hs := @List.sorted_mergeSort MatchRow
      (fun a b : MatchRow => decide (b.score_int ≤ a.score_int))
      shortlistLe_trans shortlistLe_total
      ((σ.«matches».map Prod.snd).filter
        (fun m => decide (m.role_id = rid) && decide (k ≤ m.score_int)))
    rw [shortlist]
    rw [List.pairwise_map]
    exact hs.imp (by simp)
  · intro hr
    rw [shortlist] at hr
    obtain ⟨row, hrow, hf⟩ := List.mem_map.1 hr
    have hrow2 : row ∈ (σ.«matches».map Prod.snd).filter
        (fun m => decide (m.role_id = rid) && decide (k ≤ m.score_int)) :=
      (List.mergeSort_perm _ _).mem_iff.1 hrow
    rw [List.mem_filter] at hrow2
    obtain ⟨hmem, hpred⟩ := hrow2
    rw [Bool.and_eq_true, decide_eq_true_eq, decide_eq_true_eq] at hpred
    subst hf
    exact ⟨hpred.2, row, hmem, hpred.1, rfl⟩

/-- Witness for C6 at a concrete store whose shortlist is a singleton. -/
theorem C6_shortlist_ranked_witness :
    (shortlist 0 0 σMatchSeed).Pairwise (fun a b => b.score_int ≤ a.score_int) ∧
    ((0 : ℤ) ≤ resultSeed.score_int ∧
      ∃ row, row ∈ σMatchSeed.«matches».map Prod.snd ∧ row.role_id = 0 ∧
        resultSeed =
          { candidate_id := some row.candidate_id, score_int := row.score_int
            rationale := row.rationale, flags := row.flags }) :=
  ⟨(C6_shortlist_ranked σMatchSeed 0 0 resultSeed).1,
   (C6_shortlist_ranked σMatchSeed 0 0 resultSeed).2
     (by simp [shortlist, σMatchSeed, rowSeed, resultSeed])⟩

/-- C3 as universally stated fails on an RTI whose requirement lists are
empty: the profile covers every must-have and nice-to-have vacuously, yet
`rules_score` is `0`, not `1`, and the final score is `0`, not `100`. -/
theorem C3_counterexample :
    (∀ m ∈ rtiEmptyReq.must, skillHit profPython.skills m) ∧
    (∀ n ∈ rtiEmptyReq.nice, skillHit profPython.skills n) ∧
    rulesScore rtiEmptyReq profPython.skills = 0 ∧
    rulesScore rtiEmptyReq profPython.skills ≠ 1 ∧
    niceScore rtiEmptyReq profPython.skills = 0 ∧
    (compute_score rtiEmptyReq (some profPython)).score_int = 0 ∧
    (compute_score rtiEmptyReq (some profPython)).score_int ≠ 100 := by
  have h1 : rulesScore rtiEmptyReq profPython.skills = 0 := by
    simp [rulesScore, rulesHits_eq_countP, rtiEmptyReq]
  have h2 : niceScore rtiEmptyReq profPython.skills = 0 := by
    simp [niceScore, niceHits, rtiEmptyReq]
  have h0 : (compute_score rtiEmptyReq (some profPython)).score_int = 0 := by
    rw [compute_score_some]
    show rawScore rtiEmptyReq profPython.skills = 0
    rw [rawScore, h1, h2]
    have h3 : (100 : ℚ) * (7/10 * 0 + 3/10 * 0) = ((0 : ℤ) : ℚ) := by norm_num
    rw [h3, pyRound_intCast]
  refine ⟨by simp [rtiEmptyReq], by simp [rtiEmptyReq], h1, by rw [h1]; norm_num, h2, h0,
    by rw [h0]; norm_num⟩

/-- C3 amended: for an RTI with non-empty must and nice lists, a profile
whose skills case-insensitively cover every must-have and every nice-to-have
string gets `rules_score = 1`, `nice_score = 1` and final score `100`. -/
theorem C3_full_cover (rti : RTI) (prof : CandidateProfile)
    (hm : rti.must ≠ []) (hn : rti.nice ≠ [])
    (hcm : ∀ m ∈ rti.must, skillHit prof.skills m)
    (hcn : ∀ n ∈ rti.nice, skillHit prof.skills n) :
    rulesScore rti prof.skills = 1 ∧ niceScore rti prof.skills = 1 ∧
    (compute_score rti (some prof)).score_int = 100 := by
  have hml : rti.must.length ≠ 0 := fun h => hm (List.length_eq_zero.1 h)
  have hnl : rti.nice.length ≠ 0 := fun h => hn (List.length_eq_zero.1 h)
  have htm : rulesTotal rti = rti.must.length := by
    rw [rulesTotal]
    omega
  have htn : niceTotal rti = rti.nice.length := by
    rw [niceTotal]
    omega
  have hhm : rulesHits rti prof.skills = rti.must.length := by
    rw [rulesHits_eq_countP]
    exact List.countP_eq_length.2 hcm
  have hhn : niceHits rti prof.skills = rti.nice.length := by
    rw [niceHits]
    exact List.countP_eq_length.2 hcn
  have h1 : rulesScore rti prof.skills = 1 := by
    rw [rulesScore, hhm, htm]
    exact div_self (by exact_mod_cast hml)
  have h2 : niceScore rti prof.skills = 1 := by
    rw [niceScore, hhn, htn]
    exact div_self (by exact_mod_cast hnl)
  refine ⟨h1, h2, ?_⟩
  rw [compute_score_some]
  show rawScore rti prof.skills = 100
  rw [rawScore, h1, h2]
  have h3 : (100 : ℚ) * (7/10 * 1 + 3/10 * 1) = ((100 : ℤ) : ℚ) := by norm_num
  rw [h3, pyRound_intCast]

/-- Witness for the amended C3 at a concrete RTI and profile. -/
theorem C3_full_cover_witness :
    (rtiPF.must ≠ [] ∧ rtiPF.nice ≠ [] ∧
      (∀ m ∈ rtiPF.must, skillHit profPF.skills m) ∧
      (∀ n ∈ rtiPF.nice, skillHit profPF.skills n)) ∧
    (rulesScore rtiPF profPF.skills = 1 ∧ niceScore rtiPF profPF.skills = 1 ∧
      (compute_score rtiPF (some profPF)).score_int = 100) :=
  ⟨⟨by decide, by decide, by decide, by decide⟩,
    C3_full_cover rtiPF profPF (by decide) (by decide) (by decide) (by decide)⟩

/-- Score of the end-to-end scenario: one of two must-haves and both
nice-to-haves hit, `round(100 * (0.7 * 0.5 + 0.3 * 1)) = 65`. -/
theorem rawScore_scenario :
    rawScore (draft_rti jdScenario) profScenario.skills = 65 := by
  have h1 : rulesHits (draft_rti jdScenario) profScenario.skills = 1 := rfl
  have h2 : rulesTotal (draft_rti jdScenario) = 2 := rfl
  have h3 : niceHits (draft_rti jdScenario) profScenario.skills = 2 := rfl
  have h4 : niceTotal (draft_rti jdScenario) = 2 := rfl
  rw [rawScore, rulesScore, niceScore, h1, h2, h3, h4]
  have h5 : (100 : ℚ) * (7/10 * ((1 : ℕ) / (2 : ℕ)) + 3/10 * ((2 : ℕ) / (2 : ℕ)))
      = ((65 : ℤ) : ℚ) := by
    push_cast
    norm_num
  rw [h5, pyRound_intCast]

/-- Score of the no-consent run: the single must-have hits, no nice-to-have
does, `round(100 * (0.7 * 1 + 0.3 * 0)) = 70`. -/
theorem rawScore_python :
    rawScore (draft_rti "python") profPython.skills = 70 := by
  have h1 : rulesHits (draft_rti "python") profPython.skills = 1 := rfl
  have h2 : rulesTotal (draft_rti "python") = 1 := rfl
  have h3 : niceHits (draft_rti "python") profPython.skills = 0 := rfl
  have h4 : niceTotal (draft_rti "python") = 3 := rfl
  rw [rawScore, rulesScore, niceScore, h1, h2, h3, h4]
  have h5 : (100 : ℚ) * (7/10 * ((1 : ℕ) / (1 : ℕ)) + 3/10 * ((0 : ℕ) / (3 : ℕ)))
      = ((70 : ℤ) : ℚ) := by
    push_cast
    norm_num
  rw [h5, pyRound_intCast]

/-- C2: the end-to-end run: create the role from the scenario job
description, mint its share token, apply through it with the scenario
profile and consent, then match; the drafted RTI has
`must = ["Python", "3y+ backend"]` and `nice = ["FastAPI", "AWS"]`, and the
single match row produced carries score 65. -/
theorem C2_end_to_end :
    ∃ role σ₁ t σ₂ cid σ₃ σ₄,
      create_role { title := "Backend Engineer", jd_raw := jdScenario } {} = (role, σ₁) ∧
      get_share role.id σ₁ = .ok (t, σ₂) ∧
      apply_to_role t { profile := profScenario, consent_bool := true } 0 σ₂ = .ok (cid, σ₃) ∧
      role.rti_json.must = ["Python", "3y+ backend"] ∧
      role.rti_json.nice = ["FastAPI", "AWS"] ∧
      match_role role.id σ₃ = .ok (1, σ₄) ∧
      σ₄.«matches».map (fun p => (p.2.role_id, p.2.candidate_id, p.2.score_int)) =
        [(role.id, cid, 65)] := by
  refine ⟨_, _, _, _, _, _, _, rfl, rfl, rfl, rfl, rfl, rfl, ?_⟩
  show [((0 : Nat), (2 : Nat), rawScore (draft_rti jdScenario) profScenario.skills)]
      = [((0 : Nat), (2 : Nat), (65 : ℤ))]
  rw [rawScore_scenario]

/-- C1 evidence: a full run in which the candidate applies with
`consent_bool = false` — the submission stores the refusal — yet the match
row produced for them carries the full skill score 70 and an empty flag
list: the `"No consent"` guard of `compute_score` (line 145) never fires,
because `hasattr(prof, 'consent_bool')` is false for every
`CandidateProfile` and the submission's consent flag is never passed to the
scorer. -/
theorem C1_consent_never_applied :
    ∃ role σ₁ t σ₂ cid σ₃ σ₄,
      create_role { title := "r", jd_raw := "python" } {} = (role, σ₁) ∧
      get_share role.id σ₁ = .ok (t, σ₂) ∧
      apply_to_role t { profile := profPython, consent_bool := false } 0 σ₂ = .ok (cid, σ₃) ∧
      σ₃.candidate_submissions.map (fun p => p.2.consent_bool) = [false] ∧
      match_role role.id σ₃ = .ok (1, σ₄) ∧
      σ₄.«matches».map (fun p => (p.2.score_int, p.2.flags)) = [(70, [])] := by
  refine ⟨_, _, _, _, _, _, _, rfl, rfl, rfl, rfl, rfl, ?_⟩
  show [((rawScore (draft_rti "python") profPython.skills : ℤ), ([] : List String))]
      = [((70 : ℤ), ([] : List String))]
  rw [rawScore_python]

/-- C10: `draft_rti` and `compute_score` are deterministic pure functions:
equal inputs give equal outputs, and in store-passing form the result does
not depend on the store, which passes through unchanged. -/
theorem C10_pure_deterministic :
    (∀ jd σ σ', (draft_rti_db jd σ).1 = (draft_rti_db jd σ').1) ∧
    (∀ jd σ, (draft_rti_db jd σ).2 = σ) ∧
    (∀ rti prof σ σ', (compute_score_db rti prof σ).1 = (compute_score_db rti prof σ').1) ∧
    (∀ rti prof σ, (compute_score_db rti prof σ).2 = σ) ∧
    (∀ jd jd', jd = jd' → draft_rti jd = draft_rti jd') ∧
    (∀ rti rti' prof prof', rti = rti' → prof = prof' →
      compute_score rti prof = compute_score rti' prof') := by
  refine ⟨fun _ _ _ => rfl, fun _ _ => rfl, fun _ _ _ _ => rfl, fun _ _ _ => rfl, ?_, ?_⟩
  · intro jd jd' h
    rw [h]
  · intro rti rti' prof prof' h1 h2
    rw [h1, h2]

/-- Witness for C10 at concrete inputs. -/
theorem C10_pure_deterministic_witness :
    draft_rti "python" = draft_rti "python" ∧
    compute_score rtiPF (some profPF) = compute_score rtiPF (some profPF) :=
  ⟨C10_pure_deterministic.2.2.2.2.1 "python" "python" rfl,
   C10_pure_deterministic.2.2.2.2.2 rtiPF rtiPF (some profPF) (some profPF) rfl rfl⟩
